import Mathlib

/-!
Shallow embedding of the Gobblet Gobblers IoT repository's game-state
synchronization core.

Two Go variants exist in the repository and are embedded separately:
- namespace `Net`: the networked terminal client (gobletgame.go), whose
  `placePiece`/`movePiece` mutate the board, publish retained snapshots via
  `saveGameState`/`publishMove`, and flip the turn;
- namespace `Solo`: the standalone variant (the unnamed source part), whose
  `placePiece` tracks a per-player per-size placement count (`pieceCount`)
  and whose main loop performs the turn flip.

Go `int` values are modelled as `Int`. Stacks are lists with the Go slice's
append-at-end convention (top of the stack = last element). The 3x3 board is
a function `Fin 3 → Fin 3 → Stack`; all accesses in the source are guarded by
explicit `Int` bounds checks, mirrored by `getCell`/`setCell`. MQTT publishes
are modelled by returning, alongside the mutated state, the list of published
snapshots in order.
-/

/-- A game piece: `Size` and `Owner` fields of the Go `Gobblet` struct. -/
structure Gobblet where
  Size : Int
  Owner : Int
deriving DecidableEq, Repr

/-- `type Stack []Gobblet` — top of the stack is the last element. -/
abbrev Stack := List Gobblet

/-- `type Board [3][3]Stack`. -/
abbrev Board := Fin 3 → Fin 3 → Stack

/-- Read `board[row][col]` for `Int` coordinates; the source only reads after
an explicit bounds check, so the out-of-bounds default `[]` is never hit on
the source's paths. -/
def getCell (b : Board) (row col : Int) : Stack :=
  if h : 0 ≤ row ∧ row < 3 ∧ 0 ≤ col ∧ col < 3 then
    b ⟨row.toNat, by omega⟩ ⟨col.toNat, by omega⟩
  else []

/-- Write `board[row][col] = s` for `Int` coordinates. -/
def setCell (b : Board) (row col : Int) (s : Stack) : Board :=
  fun i j => if (i : Int) = row ∧ (j : Int) = col then s else b i j

/-- Go's `len(cell) > 0 && cell[len(cell)-1].Size >= size`: the target cell is
non-empty and its top piece blocks a piece of the given size. -/
def topBlocks (s : Stack) (size : Int) : Bool :=
  match s.getLast? with
  | some g => size ≤ g.Size
  | none => false

/-- `checkLine`: the three stacks are non-empty and their top pieces share an
owner; returns that owner, else 0. Identical in both variants. -/
def checkLine (a b c : Stack) : Int :=
  match a.getLast?, b.getLast?, c.getLast? with
  | some x, some y, some z =>
      if x.Owner = y.Owner ∧ y.Owner = z.Owner then x.Owner else 0
  | _, _, _ => 0

/-- `checkWin`: scan rows and columns interleaved (row i, then column i, for
i = 0,1,2), then the two diagonals, returning the first non-zero line owner.
Identical in both variants. -/
def checkWin (b : Board) : Int :=
  if checkLine (b 0 0) (b 0 1) (b 0 2) ≠ 0 then
    checkLine (b 0 0) (b 0 1) (b 0 2)
  else if checkLine (b 0 0) (b 1 0) (b 2 0) ≠ 0 then
    checkLine (b 0 0) (b 1 0) (b 2 0)
  else if checkLine (b 1 0) (b 1 1) (b 1 2) ≠ 0 then
    checkLine (b 1 0) (b 1 1) (b 1 2)
  else if checkLine (b 0 1) (b 1 1) (b 2 1) ≠ 0 then
    checkLine (b 0 1) (b 1 1) (b 2 1)
  else if checkLine (b 2 0) (b 2 1) (b 2 2) ≠ 0 then
    checkLine (b 2 0) (b 2 1) (b 2 2)
  else if checkLine (b 0 2) (b 1 2) (b 2 2) ≠ 0 then
    checkLine (b 0 2) (b 1 2) (b 2 2)
  else if checkLine (b 0 0) (b 1 1) (b 2 2) ≠ 0 then
    checkLine (b 0 0) (b 1 1) (b 2 2)
  else if checkLine (b 0 2) (b 1 1) (b 2 0) ≠ 0 then
    checkLine (b 0 2) (b 1 1) (b 2 0)
  else 0

/-- The wire snapshot `GameState{Board, PlayerTurn, Winner}`. -/
structure GameState where
  board : Board
  playerTurn : Int
  winner : Int

namespace Net

/-- The networked client's shared mutable state: the `board` and `playerTurn`
globals of gobletgame.go. -/
structure State where
  board : Board
  playerTurn : Int

/-- `var board Board; playerTurn = 1`: Go zero-value board (all stacks nil)
and player 1 to move. -/
def initState : State := { board := fun _ _ => [], playerTurn := 1 }

/-- The snapshot constructed by `saveGameState` and `publishMove`: both
recompute `winner := checkWin()` from the current board and publish
`GameState{Board: board, PlayerTurn: playerTurn, Winner: winner}` retained. -/
def snapshotOf (b : Board) (turn : Int) : GameState :=
  { board := b, playerTurn := turn, winner := checkWin b }

/-- `placePiece(row, col, size)` of gobletgame.go: validates size range,
bounds, and the top-size rule; on success appends `Gobblet{size, playerTurn}`,
publishes via `saveGameState()` then `publishMove()`, and if no winner flips
the turn and publishes once more via `publishMove()`. Returns the Go result,
the new state, and the snapshots published, in order. -/
def placePiece (st : State) (row col size : Int) :
    Bool × State × List GameState :=
  if size < 1 ∨ 3 < size then (false, st, [])
  else if row < 0 ∨ 3 ≤ row ∨ col < 0 ∨ 3 ≤ col then (false, st, [])
  else if topBlocks (getCell st.board row col) size then (false, st, [])
  else
    let b := setCell st.board row col
      (getCell st.board row col ++ [{ Size := size, Owner := st.playerTurn }])
    let pubs := [snapshotOf b st.playerTurn, snapshotOf b st.playerTurn]
    if checkWin b ≠ 0 then
      (true, { board := b, playerTurn := st.playerTurn }, pubs)
    else
      let t := 3 - st.playerTurn
      (true, { board := b, playerTurn := t }, pubs ++ [snapshotOf b t])

/-- `movePiece(fromRow, fromCol, toRow, toCol)` of gobletgame.go: validates
bounds, non-empty source, ownership of the source top by the current player,
and the destination top-size rule; on success pops the source top, appends it
to the destination, publishes twice, and if no winner flips the turn and
publishes a third time. -/
def movePiece (st : State) (fromRow fromCol toRow toCol : Int) :
    Bool × State × List GameState :=
  if fromRow < 0 ∨ 3 ≤ fromRow ∨ fromCol < 0 ∨ 3 ≤ fromCol ∨
      toRow < 0 ∨ 3 ≤ toRow ∨ toCol < 0 ∨ 3 ≤ toCol then (false, st, [])
  else if hsrc : getCell st.board fromRow fromCol = [] then (false, st, [])
  else
    let top := (getCell st.board fromRow fromCol).getLast hsrc
    if top.Owner ≠ st.playerTurn then (false, st, [])
    else if topBlocks (getCell st.board toRow toCol) top.Size then
      (false, st, [])
    else
      let b1 := setCell st.board fromRow fromCol
        (getCell st.board fromRow fromCol).dropLast
      let b := setCell b1 toRow toCol (getCell b1 toRow toCol ++ [top])
      let pubs := [snapshotOf b st.playerTurn, snapshotOf b st.playerTurn]
      if checkWin b ≠ 0 then
        (true, { board := b, playerTurn := st.playerTurn }, pubs)
      else
        let t := 3 - st.playerTurn
        (true, { board := b, playerTurn := t }, pubs ++ [snapshotOf b t])

end Net

namespace Solo

/-- The standalone variant's state: `board`, `playerTurn`, and the
`pieceCount` map. `pieceCount` is modelled as a total function
player → size → count with the Go map's zero default for absent keys. -/
structure State where
  board : Board
  playerTurn : Int
  pieceCount : Int → Int → Int

/-- Initial standalone state: empty board, player 1, all counts zero (the
map literal initializes sizes 1..3 for players 1 and 2 to 0, and absent keys
read as 0). -/
def initState : State :=
  { board := fun _ _ => [], playerTurn := 1, pieceCount := fun _ _ => 0 }

/-- `pieceCount[player][size]++`. -/
def bumpCount (f : Int → Int → Int) (player size : Int) : Int → Int → Int :=
  fun p s => if p = player ∧ s = size then f player size + 1 else f p s

/-- `placePiece(row, col, size)` of the standalone variant: validates bounds,
the placement count for this size (`pieceCount[playerTurn][size] >= 3`), and
the top-size rule; on success appends `Gobblet{size, playerTurn}` and
increments the count. No size-range validation and no publishing. -/
def placePiece (st : State) (row col size : Int) : Bool × State :=
  if row < 0 ∨ 3 ≤ row ∨ col < 0 ∨ 3 ≤ col then (false, st)
  else if 3 ≤ st.pieceCount st.playerTurn size then (false, st)
  else if topBlocks (getCell st.board row col) size then (false, st)
  else
    (true,
      { board := setCell st.board row col
          (getCell st.board row col ++
            [{ Size := size, Owner := st.playerTurn }])
        playerTurn := st.playerTurn
        pieceCount := bumpCount st.pieceCount st.playerTurn size })

/-- `movePiece(fromRow, fromCol, toRow, toCol)` of the standalone variant:
same validation and board mutation as the networked one, with no publishing
and no turn handling (the main loop flips the turn). -/
def movePiece (st : State) (fromRow fromCol toRow toCol : Int) :
    Bool × State :=
  if fromRow < 0 ∨ 3 ≤ fromRow ∨ fromCol < 0 ∨ 3 ≤ fromCol ∨
      toRow < 0 ∨ 3 ≤ toRow ∨ toCol < 0 ∨ 3 ≤ toCol then (false, st)
  else if hsrc : getCell st.board fromRow fromCol = [] then (false, st)
  else
    let top := (getCell st.board fromRow fromCol).getLast hsrc
    if top.Owner ≠ st.playerTurn then (false, st)
    else if topBlocks (getCell st.board toRow toCol) top.Size then
      (false, st)
    else
      let b1 := setCell st.board fromRow fromCol
        (getCell st.board fromRow fromCol).dropLast
      (true,
        { st with
          board := setCell b1 toRow toCol (getCell b1 toRow toCol ++ [top]) })

/-- A single local action of the standalone main loop. -/
inductive Action where
  | place (row col size : Int)
  | move (fromRow fromCol toRow toCol : Int)

/-- One iteration of the standalone `main` loop's state change: perform the
action; on failure the loop continues unchanged; on success, if `checkWin`
is non-zero the process exits (turn untouched), otherwise
`playerTurn = 3 - playerTurn`. -/
def step (st : State) (a : Action) : Bool × State :=
  let r := match a with
    | .place row col size => placePiece st row col size
    | .move fr fc tr tc => movePiece st fr fc tr tc
  if r.1 then
    if checkWin r.2.board ≠ 0 then (true, r.2)
    else (true, { r.2 with playerTurn := 3 - r.2.playerTurn })
  else (false, st)

end Solo

/-! ## Spec-side vocabulary and basic board lemmas -/

/-- Owner of the visible top piece of a stack, `none` for an empty cell. -/
def cellTopOwner (s : Stack) : Option Int :=
  s.getLast?.map fun g => g.Owner

/-- A line (given by its three stacks) is won by `p`: all three cells are
non-empty and each top piece is owned by `p`. -/
def lineWonBy (a b c : Stack) (p : Int) : Prop :=
  cellTopOwner a = some p ∧ cellTopOwner b = some p ∧ cellTopOwner c = some p

/-- Spec-side winning condition: some of the 8 lines (3 rows, 3 columns,
2 diagonals) is won by `p`. -/
def winsSpec (b : Board) (p : Int) : Prop :=
  lineWonBy (b 0 0) (b 0 1) (b 0 2) p ∨
  lineWonBy (b 1 0) (b 1 1) (b 1 2) p ∨
  lineWonBy (b 2 0) (b 2 1) (b 2 2) p ∨
  lineWonBy (b 0 0) (b 1 0) (b 2 0) p ∨
  lineWonBy (b 0 1) (b 1 1) (b 2 1) p ∨
  lineWonBy (b 0 2) (b 1 2) (b 2 2) p ∨
  lineWonBy (b 0 0) (b 1 1) (b 2 2) p ∨
  lineWonBy (b 0 2) (b 1 1) (b 2 0) p

/-- Int coordinates lie inside the 3x3 grid. -/
def inBounds (row col : Int) : Prop :=
  0 ≤ row ∧ row < 3 ∧ 0 ≤ col ∧ col < 3

instance (row col : Int) : Decidable (inBounds row col) := by
  unfold inBounds; infer_instance

lemma getCell_eq (b : Board) (i j : Fin 3) :
    getCell b (i : Int) (j : Int) = b i j := by
  unfold getCell
  rw [dif_pos]
  · congr 1 <;> ext <;> simp
  · refine ⟨by positivity, ?_, by positivity, ?_⟩ <;> omega

lemma getCell_setCell_same (b : Board) (row col : Int) (s : Stack)
    (h : inBounds row col) : getCell (setCell b row col s) row col = s := by
  obtain ⟨h1, h2, h3, h4⟩ := h
  unfold getCell setCell
  rw [dif_pos ⟨h1, h2, h3, h4⟩]
  simp only [Fin.val_mk]
  rw [if_pos]
  constructor <;> simp <;> omega

lemma getCell_setCell_ne (b : Board) (row col r c : Int) (s : Stack)
    (h : ¬(r = row ∧ c = col)) :
    getCell (setCell b row col s) r c = getCell b r c := by
  unfold getCell setCell
  by_cases hb : 0 ≤ r ∧ r < 3 ∧ 0 ≤ c ∧ c < 3
  · rw [dif_pos hb, dif_pos hb, if_neg]
    intro hc
    apply h
    obtain ⟨hc1, hc2⟩ := hc
    constructor <;> [skip; skip] <;>
      simp only [Fin.val_mk] at hc1 hc2 <;> omega
  · rw [dif_neg hb, dif_neg hb]

lemma topBlocks_true_iff (s : Stack) (k : Int) :
    topBlocks s k = true ↔ ∃ g, s.getLast? = some g ∧ k ≤ g.Size := by
  unfold topBlocks
  cases h : s.getLast? <;> simp

lemma topBlocks_false_iff (s : Stack) (k : Int) :
    topBlocks s k = false ↔ ∀ g, s.getLast? = some g → g.Size < k := by
  unfold topBlocks
  cases h : s.getLast? <;> simp

/-- `checkLine` is a function of the three top owners alone. -/
lemma checkLine_eq_ownerView (a b c : Stack) :
    checkLine a b c =
      match cellTopOwner a, cellTopOwner b, cellTopOwner c with
      | some x, some y, some z => if x = y ∧ y = z then x else 0
      | _, _, _ => 0 := by
  unfold checkLine cellTopOwner
  cases a.getLast? <;> cases b.getLast? <;> cases c.getLast? <;> simp

lemma checkLine_congr {a b c a2 b2 c2 : Stack}
    (ha : cellTopOwner a2 = cellTopOwner a)
    (hb : cellTopOwner b2 = cellTopOwner b)
    (hc : cellTopOwner c2 = cellTopOwner c) :
    checkLine a2 b2 c2 = checkLine a b c := by
  rw [checkLine_eq_ownerView, checkLine_eq_ownerView, ha, hb, hc]

lemma lineWonBy_checkLine {a b c : Stack} {p : Int}
    (h : lineWonBy a b c p) : checkLine a b c = p := by
  obtain ⟨ha, hb, hc⟩ := h
  rw [checkLine_eq_ownerView, ha, hb, hc]
  simp

lemma checkLine_lineWonBy {a b c : Stack} (h : checkLine a b c ≠ 0) :
    lineWonBy a b c (checkLine a b c) := by
  unfold lineWonBy cellTopOwner
  unfold checkLine at h ⊢
  split at h
  next x y z hla hlb hlc =>
    rw [hla, hlb, hlc]
    by_cases hxy : x.Owner = y.Owner ∧ y.Owner = z.Owner
    · refine ⟨?_, ?_, ?_⟩ <;> simp [if_pos hxy, hxy.1, hxy.2]
    · rw [if_neg hxy] at h
      exact absurd rfl h
  next => exact absurd rfl h

lemma checkWin_eq_zero_lines {b : Board} (h : checkWin b = 0) :
    checkLine (b 0 0) (b 0 1) (b 0 2) = 0 ∧
    checkLine (b 1 0) (b 1 1) (b 1 2) = 0 ∧
    checkLine (b 2 0) (b 2 1) (b 2 2) = 0 ∧
    checkLine (b 0 0) (b 1 0) (b 2 0) = 0 ∧
    checkLine (b 0 1) (b 1 1) (b 2 1) = 0 ∧
    checkLine (b 0 2) (b 1 2) (b 2 2) = 0 ∧
    checkLine (b 0 0) (b 1 1) (b 2 2) = 0 ∧
    checkLine (b 0 2) (b 1 1) (b 2 0) = 0 := by
  unfold checkWin at h
  split_ifs at h with h1 h2 h3 h4 h5 h6 h7 h8
  · exact absurd h h1
  · exact absurd h h2
  · exact absurd h h3
  · exact absurd h h4
  · exact absurd h h5
  · exact absurd h h6
  · exact absurd h h7
  · exact absurd h h8
  · push_neg at h1 h2 h3 h4 h5 h6 h7 h8
    exact ⟨h1, h3, h5, h2, h4, h6, h7, h8⟩

lemma checkWin_winsSpec {b : Board} (h : checkWin b ≠ 0) :
    winsSpec b (checkWin b) := by
  unfold winsSpec
  unfold checkWin at h ⊢
  split_ifs at h ⊢ with h1 h2 h3 h4 h5 h6 h7 h8
  · exact Or.inl (checkLine_lineWonBy h1)
  · exact Or.inr (Or.inr (Or.inr (Or.inl (checkLine_lineWonBy h2))))
  · exact Or.inr (Or.inl (checkLine_lineWonBy h3))
  · exact Or.inr (Or.inr (Or.inr (Or.inr (Or.inl
      (checkLine_lineWonBy h4)))))
  · exact Or.inr (Or.inr (Or.inl (checkLine_lineWonBy h5)))
  · exact Or.inr (Or.inr (Or.inr (Or.inr (Or.inr (Or.inl
      (checkLine_lineWonBy h6))))))
  · exact Or.inr (Or.inr (Or.inr (Or.inr (Or.inr (Or.inr (Or.inl
      (checkLine_lineWonBy h7)))))))
  · exact Or.inr (Or.inr (Or.inr (Or.inr (Or.inr (Or.inr (Or.inr
      (checkLine_lineWonBy h8)))))))
  · exact absurd rfl h

lemma winsSpec_checkWin_ne {b : Board} {p : Int} (hp : p ≠ 0)
    (hw : winsSpec b p) : checkWin b ≠ 0 := by
  intro h0
  obtain ⟨l1, l2, l3, l4, l5, l6, l7, l8⟩ := checkWin_eq_zero_lines h0
  rcases hw with h | h | h | h | h | h | h | h
  · exact hp ((lineWonBy_checkLine h).symm.trans l1)
  · exact hp ((lineWonBy_checkLine h).symm.trans l2)
  · exact hp ((lineWonBy_checkLine h).symm.trans l3)
  · exact hp ((lineWonBy_checkLine h).symm.trans l4)
  · exact hp ((lineWonBy_checkLine h).symm.trans l5)
  · exact hp ((lineWonBy_checkLine h).symm.trans l6)
  · exact hp ((lineWonBy_checkLine h).symm.trans l7)
  · exact hp ((lineWonBy_checkLine h).symm.trans l8)

lemma checkWin_congr {b b2 : Board}
    (h : ∀ i j : Fin 3, cellTopOwner (b2 i j) = cellTopOwner (b i j)) :
    checkWin b2 = checkWin b := by
  unfold checkWin
  rw [checkLine_congr (h 0 0) (h 0 1) (h 0 2),
    checkLine_congr (h 0 0) (h 1 0) (h 2 0),
    checkLine_congr (h 1 0) (h 1 1) (h 1 2),
    checkLine_congr (h 0 1) (h 1 1) (h 2 1),
    checkLine_congr (h 2 0) (h 2 1) (h 2 2),
    checkLine_congr (h 0 2) (h 1 2) (h 2 2),
    checkLine_congr (h 0 0) (h 1 1) (h 2 2),
    checkLine_congr (h 0 2) (h 1 1) (h 2 0)]

/-! ## Claim theorems -/

/-- C3: for every board, `checkWin` is non-zero exactly when some of the 8
lines (3 rows, 3 columns, 2 diagonals) has three non-empty cells whose top
pieces share an owner; when non-zero, the returned player owns such a line;
and the result depends only on the owners of the top pieces, so changing
piece sizes anywhere (in particular permuting sizes within a winning line)
never changes the result. -/
theorem checkWin_correct (b : Board) :
    ((∃ p, p ≠ 0 ∧ winsSpec b p) ↔ checkWin b ≠ 0) ∧
    (checkWin b ≠ 0 → winsSpec b (checkWin b)) ∧
    (∀ b2 : Board,
      (∀ i j : Fin 3, cellTopOwner (b2 i j) = cellTopOwner (b i j)) →
      checkWin b2 = checkWin b) :=
  ⟨⟨fun ⟨_, hp, hw⟩ => winsSpec_checkWin_ne hp hw,
      fun h => ⟨checkWin b, h, checkWin_winsSpec h⟩⟩,
    fun h => checkWin_winsSpec h,
    fun _ h => checkWin_congr h⟩

/-- C3 witness: on the board whose every cell carries a single piece of
player 1, `checkWin` is 1 and the theorem yields a concrete won line. -/
theorem checkWin_correct_witness :
    winsSpec (fun _ _ => [{ Size := 1, Owner := 1 }])
      (checkWin (fun _ _ => [{ Size := 1, Owner := 1 }])) :=
  (checkWin_correct (fun _ _ => [{ Size := 1, Owner := 1 }])).2.1 (by decide)

/-- C2: the standalone `placePiece` rejects exactly when the coordinates are
out of the 3x3 bounds, or the acting player's placement count for that size
has reached 3, or the target cell's top piece has size at least the placed
size; on success it appends the piece for the acting player to the target
cell, leaves every other cell and the turn unchanged, and bumps exactly the
acting player's count for that size. -/
theorem soloPlacePiece_spec (st : Solo.State) (row col size : Int) :
    ((Solo.placePiece st row col size).1 = false ↔
      ¬ inBounds row col ∨
      3 ≤ st.pieceCount st.playerTurn size ∨
      ∃ g, (getCell st.board row col).getLast? = some g ∧ size ≤ g.Size) ∧
    ((Solo.placePiece st row col size).1 = true →
      inBounds row col ∧
      getCell (Solo.placePiece st row col size).2.board row col =
        getCell st.board row col ++
          [{ Size := size, Owner := st.playerTurn }] ∧
      (∀ r c : Int, ¬(r = row ∧ c = col) →
        getCell (Solo.placePiece st row col size).2.board r c =
          getCell st.board r c) ∧
      (Solo.placePiece st row col size).2.playerTurn = st.playerTurn ∧
      (Solo.placePiece st row col size).2.pieceCount st.playerTurn size =
        st.pieceCount st.playerTurn size + 1 ∧
      (∀ p s : Int, ¬(p = st.playerTurn ∧ s = size) →
        (Solo.placePiece st row col size).2.pieceCount p s =
          st.pieceCount p s)) := by
  unfold Solo.placePiece
  split_ifs with h1 h2 h3
  · refine ⟨by simp [inBounds]; omega, by intro h; simp at h⟩
  · exact ⟨by simp [h2], by intro h; simp at h⟩
  · exact ⟨by simp [(topBlocks_true_iff _ _).mp h3], by intro h; simp at h⟩
  · have hb : inBounds row col := by unfold inBounds; omega
    refine ⟨?_, ?_⟩
    · refine iff_of_false (by simp) ?_
      push_neg
      refine ⟨hb, by omega, fun g hg => ?_⟩
      have := (topBlocks_false_iff (getCell st.board row col) size).mp
        (by simpa using h3) g hg
      omega
    · intro _
      refine ⟨hb, ?_, ?_, rfl, ?_, ?_⟩
      · exact getCell_setCell_same _ _ _ _ hb
      · intro r c hrc
        exact getCell_setCell_ne _ _ _ _ _ _ hrc
      · simp [Solo.bumpCount]
      · intro p s hps
        simp only [Solo.bumpCount]
        rw [if_neg hps]

/-- C2 witness: placing size 1 at (0,0) from the initial standalone state
succeeds and has the promised effects; placing at row 5 is rejected. -/
theorem soloPlacePiece_spec_witness :
    getCell (Solo.placePiece Solo.initState 0 0 1).2.board 0 0 =
      getCell Solo.initState.board 0 0 ++ [{ Size := 1, Owner := 1 }] :=
  ((soloPlacePiece_spec Solo.initState 0 0 1).2 (by decide)).2.1

lemma netPlacePiece_reject {st : Net.State} {row col size : Int}
    (h : (Net.placePiece st row col size).1 = false) :
    Net.placePiece st row col size = (false, st, []) := by
  simp only [Net.placePiece] at h ⊢
  split_ifs at h ⊢ <;> simp_all

lemma netMovePiece_reject {st : Net.State} {fr fc tr tc : Int}
    (h : (Net.movePiece st fr fc tr tc).1 = false) :
    Net.movePiece st fr fc tr tc = (false, st, []) := by
  simp only [Net.movePiece] at h ⊢
  split_ifs at h ⊢ <;> simp_all

lemma soloPlacePiece_reject {st : Solo.State} {row col size : Int}
    (h : (Solo.placePiece st row col size).1 = false) :
    Solo.placePiece st row col size = (false, st) := by
  simp only [Solo.placePiece] at h ⊢
  split_ifs at h ⊢ <;> simp_all

lemma soloMovePiece_reject {st : Solo.State} {fr fc tr tc : Int}
    (h : (Solo.movePiece st fr fc tr tc).1 = false) :
    Solo.movePiece st fr fc tr tc = (false, st) := by
  simp only [Solo.movePiece] at h ⊢
  split_ifs at h ⊢ <;> simp_all

/-- C4: a rejected place or move (any validation failure, in either variant)
returns the state unchanged — board, placement counts and turn — and
publishes nothing; re-invoking the operation on the resulting state yields
the very same rejection with no mutation. -/
theorem rejected_actions_no_mutation :
    (∀ (st : Net.State) (row col size : Int),
      (Net.placePiece st row col size).1 = false →
      Net.placePiece st row col size = (false, st, []) ∧
      Net.placePiece (Net.placePiece st row col size).2.1 row col size =
        (false, st, [])) ∧
    (∀ (st : Net.State) (fr fc tr tc : Int),
      (Net.movePiece st fr fc tr tc).1 = false →
      Net.movePiece st fr fc tr tc = (false, st, []) ∧
      Net.movePiece (Net.movePiece st fr fc tr tc).2.1 fr fc tr tc =
        (false, st, [])) ∧
    (∀ (st : Solo.State) (row col size : Int),
      (Solo.placePiece st row col size).1 = false →
      Solo.placePiece st row col size = (false, st) ∧
      Solo.placePiece (Solo.placePiece st row col size).2 row col size =
        (false, st)) ∧
    (∀ (st : Solo.State) (fr fc tr tc : Int),
      (Solo.movePiece st fr fc tr tc).1 = false →
      Solo.movePiece st fr fc tr tc = (false, st) ∧
      Solo.movePiece (Solo.movePiece st fr fc tr tc).2 fr fc tr tc =
        (false, st)) := by
  refine ⟨fun st row col size h => ?_, fun st fr fc tr tc h => ?_,
    fun st row col size h => ?_, fun st fr fc tr tc h => ?_⟩
  · have h1 := netPlacePiece_reject h
    exact ⟨h1, by rw [h1]; exact h1⟩
  · have h1 := netMovePiece_reject h
    exact ⟨h1, by rw [h1]; exact h1⟩
  · have h1 := soloPlacePiece_reject h
    exact ⟨h1, by rw [h1]; exact h1⟩
  · have h1 := soloMovePiece_reject h
    exact ⟨h1, by rw [h1]; exact h1⟩

/-- C4 witness: the out-of-bounds place at row 5 and the empty-source move
are rejected from the initial states with no mutation and no publish, and
re-invoking yields the same rejection. -/
theorem rejected_actions_no_mutation_witness :
    Net.placePiece Net.initState 5 0 1 = (false, Net.initState, []) ∧
    Net.movePiece Net.initState 0 0 1 1 = (false, Net.initState, []) ∧
    Solo.placePiece Solo.initState 5 0 1 = (false, Solo.initState) ∧
    Solo.movePiece Solo.initState 0 0 1 1 = (false, Solo.initState) :=
  ⟨(rejected_actions_no_mutation.1 Net.initState 5 0 1 (by decide)).1,
    (rejected_actions_no_mutation.2.1 Net.initState 0 0 1 1 (by decide)).1,
    (rejected_actions_no_mutation.2.2.1 Solo.initState 5 0 1 (by decide)).1,
    (rejected_actions_no_mutation.2.2.2 Solo.initState 0 0 1 1 (by decide)).1⟩

lemma netPlacePiece_turn (st : Net.State) (row col size : Int) :
    ((Net.placePiece st row col size).1 = false →
      (Net.placePiece st row col size).2.1.playerTurn = st.playerTurn) ∧
    ((Net.placePiece st row col size).1 = true →
      checkWin (Net.placePiece st row col size).2.1.board ≠ 0 →
      (Net.placePiece st row col size).2.1.playerTurn = st.playerTurn) ∧
    ((Net.placePiece st row col size).1 = true →
      checkWin (Net.placePiece st row col size).2.1.board = 0 →
      (Net.placePiece st row col size).2.1.playerTurn = 3 - st.playerTurn) ∧
    (st.playerTurn = 1 ∨ st.playerTurn = 2 →
      (Net.placePiece st row col size).2.1.playerTurn = 1 ∨
      (Net.placePiece st row col size).2.1.playerTurn = 2) := by
  simp only [Net.placePiece]
  split_ifs with h1 h2 h3 h4 <;>
    refine ⟨fun hf => ?_, fun ht hw => ?_, fun ht hw => ?_, fun hm => ?_⟩ <;>
    simp_all <;> omega

lemma netMovePiece_turn (st : Net.State) (fr fc tr tc : Int) :
    ((Net.movePiece st fr fc tr tc).1 = false →
      (Net.movePiece st fr fc tr tc).2.1.playerTurn = st.playerTurn) ∧
    ((Net.movePiece st fr fc tr tc).1 = true →
      checkWin (Net.movePiece st fr fc tr tc).2.1.board ≠ 0 →
      (Net.movePiece st fr fc tr tc).2.1.playerTurn = st.playerTurn) ∧
    ((Net.movePiece st fr fc tr tc).1 = true →
      checkWin (Net.movePiece st fr fc tr tc).2.1.board = 0 →
      (Net.movePiece st fr fc tr tc).2.1.playerTurn = 3 - st.playerTurn) ∧
    (st.playerTurn = 1 ∨ st.playerTurn = 2 →
      (Net.movePiece st fr fc tr tc).2.1.playerTurn = 1 ∨
      (Net.movePiece st fr fc tr tc).2.1.playerTurn = 2) := by
  simp only [Net.movePiece]
  split_ifs with h1 h2 h3 h4 h5 <;>
    refine ⟨fun hf => ?_, fun ht hw => ?_, fun ht hw => ?_, fun hm => ?_⟩ <;>
    simp_all <;> omega

lemma soloPlacePiece_keeps_turn (st : Solo.State) (row col size : Int) :
    (Solo.placePiece st row col size).2.playerTurn = st.playerTurn := by
  simp only [Solo.placePiece]
  split_ifs <;> rfl

lemma soloMovePiece_keeps_turn (st : Solo.State) (fr fc tr tc : Int) :
    (Solo.movePiece st fr fc tr tc).2.playerTurn = st.playerTurn := by
  simp only [Solo.movePiece]
  split_ifs <;> rfl

lemma soloStep_turn (st : Solo.State) (a : Solo.Action) :
    ((Solo.step st a).1 = false →
      (Solo.step st a).2.playerTurn = st.playerTurn) ∧
    ((Solo.step st a).1 = true →
      checkWin (Solo.step st a).2.board ≠ 0 →
      (Solo.step st a).2.playerTurn = st.playerTurn) ∧
    ((Solo.step st a).1 = true →
      checkWin (Solo.step st a).2.board = 0 →
      (Solo.step st a).2.playerTurn = 3 - st.playerTurn) ∧
    (st.playerTurn = 1 ∨ st.playerTurn = 2 →
      (Solo.step st a).2.playerTurn = 1 ∨
      (Solo.step st a).2.playerTurn = 2) := by
  rcases a with ⟨row, col, size⟩ | ⟨fr, fc, tr, tc⟩ <;>
    simp only [Solo.step] <;>
    split_ifs with h1 h2 <;>
    refine ⟨fun hf => ?_, fun ht hw => ?_, fun ht hw => ?_, fun hm => ?_⟩ <;>
    simp_all [soloPlacePiece_keeps_turn, soloMovePiece_keeps_turn] <;>
    omega

/-- C5: the turn is preserved by any rejected action, flips via
`next = 3 - current` after a successful place or move whose resulting board
has no winner, does not flip when the successful action produced a winner,
and stays in {1, 2} — in the networked `placePiece`/`movePiece` and in the
standalone main loop's step. -/
theorem turn_state_machine :
    (∀ (st : Net.State) (row col size : Int),
      ((Net.placePiece st row col size).1 = false →
        (Net.placePiece st row col size).2.1.playerTurn = st.playerTurn) ∧
      ((Net.placePiece st row col size).1 = true →
        checkWin (Net.placePiece st row col size).2.1.board ≠ 0 →
        (Net.placePiece st row col size).2.1.playerTurn = st.playerTurn) ∧
      ((Net.placePiece st row col size).1 = true →
        checkWin (Net.placePiece st row col size).2.1.board = 0 →
        (Net.placePiece st row col size).2.1.playerTurn =
          3 - st.playerTurn) ∧
      (st.playerTurn = 1 ∨ st.playerTurn = 2 →
        (Net.placePiece st row col size).2.1.playerTurn = 1 ∨
        (Net.placePiece st row col size).2.1.playerTurn = 2)) ∧
    (∀ (st : Net.State) (fr fc tr tc : Int),
      ((Net.movePiece st fr fc tr tc).1 = false →
        (Net.movePiece st fr fc tr tc).2.1.playerTurn = st.playerTurn) ∧
      ((Net.movePiece st fr fc tr tc).1 = true →
        checkWin (Net.movePiece st fr fc tr tc).2.1.board ≠ 0 →
        (Net.movePiece st fr fc tr tc).2.1.playerTurn = st.playerTurn) ∧
      ((Net.movePiece st fr fc tr tc).1 = true →
        checkWin (Net.movePiece st fr fc tr tc).2.1.board = 0 →
        (Net.movePiece st fr fc tr tc).2.1.playerTurn =
          3 - st.playerTurn) ∧
      (st.playerTurn = 1 ∨ st.playerTurn = 2 →
        (Net.movePiece st fr fc tr tc).2.1.playerTurn = 1 ∨
        (Net.movePiece st fr fc tr tc).2.1.playerTurn = 2)) ∧
    (∀ (st : Solo.State) (a : Solo.Action),
      ((Solo.step st a).1 = false →
        (Solo.step st a).2.playerTurn = st.playerTurn) ∧
      ((Solo.step st a).1 = true →
        checkWin (Solo.step st a).2.board ≠ 0 →
        (Solo.step st a).2.playerTurn = st.playerTurn) ∧
      ((Solo.step st a).1 = true →
        checkWin (Solo.step st a).2.board = 0 →
        (Solo.step st a).2.playerTurn = 3 - st.playerTurn) ∧
      (st.playerTurn = 1 ∨ st.playerTurn = 2 →
        (Solo.step st a).2.playerTurn = 1 ∨
        (Solo.step st a).2.playerTurn = 2)) :=
  ⟨netPlacePiece_turn, netMovePiece_turn, soloStep_turn⟩

/-- C5 witness: placing size 1 at (0,0) from the initial networked state
flips the turn from 1 to 2; the same action stepped in the standalone
variant flips too; an out-of-bounds place keeps the turn at 1. -/
theorem turn_state_machine_witness :
    (Net.placePiece Net.initState 0 0 1).2.1.playerTurn = 3 - 1 ∧
    (Solo.step Solo.initState (Solo.Action.place 0 0 1)).2.playerTurn =
      3 - 1 ∧
    (Net.placePiece Net.initState 5 0 1).2.1.playerTurn = 1 :=
  ⟨(turn_state_machine.1 Net.initState 0 0 1).2.2.1 (by decide) (by decide),
    (turn_state_machine.2.2 Solo.initState (Solo.Action.place 0 0 1)).2.2.1
      (by decide) (by decide),
    (turn_state_machine.1 Net.initState 5 0 1).1 (by decide)⟩

/-- A demo board with a single size-2 piece of player 1 at (0,0). -/
def demoBoard1 : Board :=
  fun i j => if i = 0 ∧ j = 0 then [{ Size := 2, Owner := 1 }] else []

/-- A demo networked state: `demoBoard1` with player 1 to move. -/
def demoNet : Net.State := { board := demoBoard1, playerTurn := 1 }

/-- C1 counterexample: placing size 1 at (0,0) from the initial networked
state succeeds, produces no winner, and issues three snapshot publishes
(`saveGameState`, `publishMove`, then `publishMove` again after the turn
flip) — not two as claimed. -/
theorem two_publishes_counterexample :
    (Net.placePiece Net.initState 0 0 1).1 = true ∧
    checkWin (Net.placePiece Net.initState 0 0 1).2.1.board = 0 ∧
    (Net.placePiece Net.initState 0 0 1).2.2.length = 3 ∧
    ¬ (Net.placePiece Net.initState 0 0 1).2.2.length = 2 := by
  refine ⟨by decide, by decide, by decide, by decide⟩

/-- C1 amended: every successful networked place or move that does not
produce a winner issues exactly three snapshot publishes: two immediately
after the board mutation (one from `saveGameState`, one from `publishMove`),
both carrying the pre-flip turn, and a third after the turn flips via
`next = 3 - current`, carrying the flipped turn — so the turn flip is
observable independently of the move. -/
theorem successful_action_three_publishes :
    (∀ (st : Net.State) (row col size : Int),
      (Net.placePiece st row col size).1 = true →
      checkWin (Net.placePiece st row col size).2.1.board = 0 →
      (Net.placePiece st row col size).2.2 =
        [Net.snapshotOf (Net.placePiece st row col size).2.1.board
            st.playerTurn,
          Net.snapshotOf (Net.placePiece st row col size).2.1.board
            st.playerTurn,
          Net.snapshotOf (Net.placePiece st row col size).2.1.board
            (3 - st.playerTurn)]) ∧
    (∀ (st : Net.State) (fr fc tr tc : Int),
      (Net.movePiece st fr fc tr tc).1 = true →
      checkWin (Net.movePiece st fr fc tr tc).2.1.board = 0 →
      (Net.movePiece st fr fc tr tc).2.2 =
        [Net.snapshotOf (Net.movePiece st fr fc tr tc).2.1.board
            st.playerTurn,
          Net.snapshotOf (Net.movePiece st fr fc tr tc).2.1.board
            st.playerTurn,
          Net.snapshotOf (Net.movePiece st fr fc tr tc).2.1.board
            (3 - st.playerTurn)]) := by
  constructor
  · intro st row col size ht hw
    simp only [Net.placePiece] at ht hw ⊢
    split_ifs at ht hw ⊢ <;> simp_all
  · intro st fr fc tr tc ht hw
    simp only [Net.movePiece] at ht hw ⊢
    split_ifs at ht hw ⊢ <;> simp_all

/-- C1 amended witness: the initial place at (0,0) and the move
(0,0) → (1,1) from the demo state each publish their three snapshots. -/
theorem successful_action_three_publishes_witness :
    (Net.placePiece Net.initState 0 0 1).2.2 =
      [Net.snapshotOf (Net.placePiece Net.initState 0 0 1).2.1.board 1,
        Net.snapshotOf (Net.placePiece Net.initState 0 0 1).2.1.board 1,
        Net.snapshotOf (Net.placePiece Net.initState 0 0 1).2.1.board
          (3 - 1)] ∧
    (Net.movePiece demoNet 0 0 1 1).2.2 =
      [Net.snapshotOf (Net.movePiece demoNet 0 0 1 1).2.1.board 1,
        Net.snapshotOf (Net.movePiece demoNet 0 0 1 1).2.1.board 1,
        Net.snapshotOf (Net.movePiece demoNet 0 0 1 1).2.1.board (3 - 1)] :=
  ⟨successful_action_three_publishes.1 Net.initState 0 0 1
      (by decide) (by decide),
    successful_action_three_publishes.2 demoNet 0 0 1 1
      (by decide) (by decide)⟩

lemma moveBoard_frame (b0 : Board) (fr fc tr tc : Int)
    (hfb : inBounds fr fc) (htb : inBounds tr tc)
    (hsrc : getCell b0 fr fc ≠ [])
    (hblk : topBlocks (getCell b0 tr tc)
      ((getCell b0 fr fc).getLast hsrc).Size = false) :
    ¬(tr = fr ∧ tc = fc) ∧
    getCell (setCell (setCell b0 fr fc (getCell b0 fr fc).dropLast) tr tc
        (getCell (setCell b0 fr fc (getCell b0 fr fc).dropLast) tr tc ++
          [(getCell b0 fr fc).getLast hsrc])) fr fc =
      (getCell b0 fr fc).dropLast ∧
    getCell (setCell (setCell b0 fr fc (getCell b0 fr fc).dropLast) tr tc
        (getCell (setCell b0 fr fc (getCell b0 fr fc).dropLast) tr tc ++
          [(getCell b0 fr fc).getLast hsrc])) tr tc =
      getCell b0 tr tc ++ [(getCell b0 fr fc).getLast hsrc] ∧
    ∀ r c : Int, ¬(r = fr ∧ c = fc) → ¬(r = tr ∧ c = tc) →
      getCell (setCell (setCell b0 fr fc (getCell b0 fr fc).dropLast) tr tc
          (getCell (setCell b0 fr fc (getCell b0 fr fc).dropLast) tr tc ++
            [(getCell b0 fr fc).getLast hsrc])) r c =
        getCell b0 r c := by
  have hne : ¬(tr = fr ∧ tc = fc) := by
    rintro ⟨h1, h2⟩
    rw [topBlocks_false_iff] at hblk
    have := hblk ((getCell b0 fr fc).getLast hsrc)
      (by rw [h1, h2]; exact List.getLast?_eq_getLast _ hsrc)
    omega
  refine ⟨hne, ?_, ?_, ?_⟩
  · rw [getCell_setCell_ne _ _ _ _ _ _ (fun h => hne ⟨h.1.symm, h.2.symm⟩)]
    exact getCell_setCell_same _ _ _ _ hfb
  · rw [getCell_setCell_same _ _ _ _ htb]
    congr 1
    exact getCell_setCell_ne _ _ _ _ _ _ hne
  · intro r c hrf hrt
    rw [getCell_setCell_ne _ _ _ _ _ _ hrt, getCell_setCell_ne _ _ _ _ _ _ hrf]

/-- C6: every successful move (in either variant) pops exactly the top of
the source stack and appends that same piece on top of the destination
stack: the source and destination differ, the source afterwards equals its
previous value minus its last element, the destination gained exactly that
piece, and every other cell is unchanged. -/
theorem move_frame_effect :
    (∀ (st : Net.State) (fr fc tr tc : Int),
      (Net.movePiece st fr fc tr tc).1 = true →
      ∃ top, (getCell st.board fr fc).getLast? = some top ∧
        ¬(tr = fr ∧ tc = fc) ∧
        getCell (Net.movePiece st fr fc tr tc).2.1.board fr fc =
          (getCell st.board fr fc).dropLast ∧
        getCell (Net.movePiece st fr fc tr tc).2.1.board tr tc =
          getCell st.board tr tc ++ [top] ∧
        ∀ r c : Int, ¬(r = fr ∧ c = fc) → ¬(r = tr ∧ c = tc) →
          getCell (Net.movePiece st fr fc tr tc).2.1.board r c =
            getCell st.board r c) ∧
    (∀ (st : Solo.State) (fr fc tr tc : Int),
      (Solo.movePiece st fr fc tr tc).1 = true →
      ∃ top, (getCell st.board fr fc).getLast? = some top ∧
        ¬(tr = fr ∧ tc = fc) ∧
        getCell (Solo.movePiece st fr fc tr tc).2.board fr fc =
          (getCell st.board fr fc).dropLast ∧
        getCell (Solo.movePiece st fr fc tr tc).2.board tr tc =
          getCell st.board tr tc ++ [top] ∧
        ∀ r c : Int, ¬(r = fr ∧ c = fc) → ¬(r = tr ∧ c = tc) →
          getCell (Solo.movePiece st fr fc tr tc).2.board r c =
            getCell st.board r c) := by
  constructor
  · intro st fr fc tr tc ht
    simp only [Net.movePiece] at ht ⊢
    split_ifs at ht ⊢ with h1 h2 h3 h4 h5
    all_goals try simp at ht
    all_goals
      have hfb : inBounds fr fc := by unfold inBounds; omega
      have htb : inBounds tr tc := by unfold inBounds; omega
      have hblk : topBlocks (getCell st.board tr tc)
          ((getCell st.board fr fc).getLast h2).Size = false := by
        simpa using h4
      obtain ⟨hne, hs, hd, hf⟩ :=
        moveBoard_frame st.board fr fc tr tc hfb htb h2 hblk
      exact ⟨(getCell st.board fr fc).getLast h2,
        List.getLast?_eq_getLast _ h2, hne, hs, hd, hf⟩
  · intro st fr fc tr tc ht
    simp only [Solo.movePiece] at ht ⊢
    split_ifs at ht ⊢ with h1 h2 h3 h4
    all_goals try simp at ht
    all_goals
      have hfb : inBounds fr fc := by unfold inBounds; omega
      have htb : inBounds tr tc := by unfold inBounds; omega
      have hblk : topBlocks (getCell st.board tr tc)
          ((getCell st.board fr fc).getLast h2).Size = false := by
        simpa using h4
      obtain ⟨hne, hs, hd, hf⟩ :=
        moveBoard_frame st.board fr fc tr tc hfb htb h2 hblk
      exact ⟨(getCell st.board fr fc).getLast h2,
        List.getLast?_eq_getLast _ h2, hne, hs, hd, hf⟩

/-- C6 witness: moving the piece at (0,0) to (1,1) from the demo state pops
the source empty and lands the piece on the destination. -/
theorem move_frame_effect_witness :
    ∃ top, (getCell demoNet.board 0 0).getLast? = some top ∧
      ¬((1 : Int) = 0 ∧ (1 : Int) = 0) ∧
      getCell (Net.movePiece demoNet 0 0 1 1).2.1.board 0 0 =
        (getCell demoNet.board 0 0).dropLast ∧
      getCell (Net.movePiece demoNet 0 0 1 1).2.1.board 1 1 =
        getCell demoNet.board 1 1 ++ [top] ∧
      ∀ r c : Int, ¬(r = 0 ∧ c = 0) → ¬(r = 1 ∧ c = 1) →
        getCell (Net.movePiece demoNet 0 0 1 1).2.1.board r c =
          getCell demoNet.board r c :=
  move_frame_effect.1 demoNet 0 0 1 1 (by decide)

/-- Every owner appearing on the board is player 1 or player 2. -/
def ownersInRange (b : Board) : Prop :=
  ∀ (i j : Fin 3), ∀ g ∈ b i j, g.Owner = 1 ∨ g.Owner = 2

instance (b : Board) : Decidable (ownersInRange b) := by
  unfold ownersInRange; infer_instance

lemma mem_setCell {b : Board} {row col : Int} {s : Stack} {i j : Fin 3}
    {g : Gobblet} (hg : g ∈ setCell b row col s i j) : g ∈ s ∨ g ∈ b i j := by
  simp only [setCell] at hg
  split_ifs at hg
  · exact Or.inl hg
  · exact Or.inr hg

lemma mem_getCell_ownersOK {b : Board} (hOK : ownersInRange b)
    {row col : Int} {g : Gobblet} (hg : g ∈ getCell b row col) :
    g.Owner = 1 ∨ g.Owner = 2 := by
  unfold getCell at hg
  split at hg
  · exact hOK _ _ g hg
  · simp at hg

lemma mem_getCell_setCell {b : Board} {row col r c : Int} {s : Stack}
    {g : Gobblet} (hg : g ∈ getCell (setCell b row col s) r c) :
    g ∈ s ∨ g ∈ getCell b r c := by
  unfold getCell at hg ⊢
  split at hg
  next h =>
    rw [dif_pos h]
    exact mem_setCell hg
  next h => simp at hg

/-- C8: a placement appends a piece whose `Owner` is the value of
`playerTurn` at the moment of the call, in both variants (the interface
takes no owner argument); consequently, if every piece on the board is
owned by player 1 or 2 and the turn is 1 or 2, the board after any local
place or move still only carries owners 1 and 2. -/
theorem placement_owner_from_turn :
    (∀ (st : Net.State) (row col size : Int),
      (Net.placePiece st row col size).1 = true →
      getCell (Net.placePiece st row col size).2.1.board row col =
        getCell st.board row col ++
          [{ Size := size, Owner := st.playerTurn }]) ∧
    (∀ (st : Solo.State) (row col size : Int),
      (Solo.placePiece st row col size).1 = true →
      getCell (Solo.placePiece st row col size).2.board row col =
        getCell st.board row col ++
          [{ Size := size, Owner := st.playerTurn }]) ∧
    (∀ (st : Net.State) (row col size : Int),
      ownersInRange st.board → st.playerTurn = 1 ∨ st.playerTurn = 2 →
      ownersInRange (Net.placePiece st row col size).2.1.board) ∧
    (∀ (st : Net.State) (fr fc tr tc : Int),
      ownersInRange st.board → st.playerTurn = 1 ∨ st.playerTurn = 2 →
      ownersInRange (Net.movePiece st fr fc tr tc).2.1.board) ∧
    (∀ (st : Solo.State) (row col size : Int),
      ownersInRange st.board → st.playerTurn = 1 ∨ st.playerTurn = 2 →
      ownersInRange (Solo.placePiece st row col size).2.board) := by
  refine ⟨?_, ?_, ?_, ?_, ?_⟩
  · intro st row col size ht
    simp only [Net.placePiece] at ht ⊢
    split_ifs at ht ⊢ with h1 h2 h3 h4
    all_goals try simp at ht
    all_goals exact getCell_setCell_same _ _ _ _ (by unfold inBounds; omega)
  · intro st row col size ht
    simp only [Solo.placePiece] at ht ⊢
    split_ifs at ht ⊢ with h1 h2 h3
    all_goals try simp at ht
    all_goals exact getCell_setCell_same _ _ _ _ (by unfold inBounds; omega)
  · intro st row col size hOK hturn
    by_cases ht : (Net.placePiece st row col size).1 = true
    · simp only [Net.placePiece] at ht ⊢
      split_ifs at ht ⊢ with h1 h2 h3 h4
      all_goals try simp at ht
      all_goals
        intro i j g hg
        rcases mem_setCell hg with h | h
        · rcases List.mem_append.mp h with h | h
          · exact mem_getCell_ownersOK hOK h
          · simp only [List.mem_singleton] at h
            rw [h]
            exact hturn
        · exact hOK i j g h
    · rw [netPlacePiece_reject (by simpa using ht)]
      exact hOK
  · intro st fr fc tr tc hOK hturn
    by_cases ht : (Net.movePiece st fr fc tr tc).1 = true
    · simp only [Net.movePiece] at ht ⊢
      split_ifs at ht ⊢ with h1 h2 h3 h4 h5
      all_goals try simp at ht
      all_goals
        intro i j g hg
        rcases mem_setCell hg with h | h
        · rcases List.mem_append.mp h with h | h
          · rcases mem_getCell_setCell h with h | h
            · exact mem_getCell_ownersOK hOK (List.dropLast_subset _ h)
            · exact mem_getCell_ownersOK hOK h
          · simp only [List.mem_singleton] at h
            rw [h]
            exact mem_getCell_ownersOK hOK (List.getLast_mem h2)
        · rcases mem_setCell h with h | h
          · exact mem_getCell_ownersOK hOK (List.dropLast_subset _ h)
          · exact hOK i j g h
    · rw [netMovePiece_reject (by simpa using ht)]
      exact hOK
  · intro st row col size hOK hturn
    by_cases ht : (Solo.placePiece st row col size).1 = true
    · simp only [Solo.placePiece] at ht ⊢
      split_ifs at ht ⊢ with h1 h2 h3
      all_goals try simp at ht
      all_goals
        intro i j g hg
        rcases mem_setCell hg with h | h
        · rcases List.mem_append.mp h with h | h
          · exact mem_getCell_ownersOK hOK h
          · simp only [List.mem_singleton] at h
            rw [h]
            exact hturn
        · exact hOK i j g h
    · rw [soloPlacePiece_reject (by simpa using ht)]
      exact hOK

/-- C8 witness: the initial place appends a player-1 piece (the current
turn), and the boards after the demo place and move carry owners in
{1, 2} only. -/
theorem placement_owner_from_turn_witness :
    getCell (Net.placePiece Net.initState 0 0 1).2.1.board 0 0 =
      getCell Net.initState.board 0 0 ++ [{ Size := 1, Owner := 1 }] ∧
    ownersInRange (Net.placePiece Net.initState 0 0 1).2.1.board ∧
    ownersInRange (Net.movePiece demoNet 0 0 1 1).2.1.board :=
  ⟨placement_owner_from_turn.1 Net.initState 0 0 1 (by decide),
    placement_owner_from_turn.2.2.1 Net.initState 0 0 1 (by decide)
      (by decide),
    placement_owner_from_turn.2.2.2.1 demoNet 0 0 1 1 (by decide)
      (by decide)⟩

/-- C9: moving a piece onto its own cell is always rejected with no
mutation: for any in-bounds cell with a non-empty stack, the destination
top-size check compares the moved piece's size against itself, so
`movePiece(r, c, r, c)` fails in both variants. -/
theorem self_move_rejected :
    (∀ (st : Net.State) (r c : Int), inBounds r c →
      getCell st.board r c ≠ [] →
      Net.movePiece st r c r c = (false, st, [])) ∧
    (∀ (st : Solo.State) (r c : Int), inBounds r c →
      getCell st.board r c ≠ [] →
      Solo.movePiece st r c r c = (false, st)) := by
  constructor
  · intro st r c hb hne
    simp only [Net.movePiece]
    split_ifs with h1 h2 h3 h4 <;> try rfl
    all_goals exact absurd ((topBlocks_true_iff _ _).mpr
      ⟨(getCell st.board r c).getLast hne,
        List.getLast?_eq_getLast _ hne, le_refl _⟩) h3
  · intro st r c hb hne
    simp only [Solo.movePiece]
    split_ifs with h1 h2 h3 <;> try rfl
    all_goals exact absurd ((topBlocks_true_iff _ _).mpr
      ⟨(getCell st.board r c).getLast hne,
        List.getLast?_eq_getLast _ hne, le_refl _⟩) h3

/-- A demo standalone state over `demoBoard1` with player 1 to move. -/
def demoSolo : Solo.State :=
  { board := demoBoard1, playerTurn := 1, pieceCount := fun _ _ => 0 }

/-- C9 witness: the self-move at the occupied cell (0,0) of the demo state
is rejected by both variants with the state unchanged. -/
theorem self_move_rejected_witness :
    Net.movePiece demoNet 0 0 0 0 = (false, demoNet, []) ∧
    Solo.movePiece demoSolo 0 0 0 0 = (false, demoSolo) :=
  ⟨self_move_rejected.1 demoNet 0 0 (by decide) (by decide),
    self_move_rejected.2 demoSolo 0 0 (by decide) (by decide)⟩

/-- C10: the networked `placePiece` rejects any size outside {1,2,3} before
any board check, while the standalone variant performs no size validation:
from its initial state it accepts size 4 at (0,0) (the count map reads 0
for the unknown size) and size 0 on the empty cell, appending pieces whose
size is outside the piece domain. -/
theorem size_validation_divergence :
    (∀ (st : Net.State) (row col size : Int), size < 1 ∨ 3 < size →
      Net.placePiece st row col size = (false, st, [])) ∧
    (Solo.placePiece Solo.initState 0 0 4).1 = true ∧
    getCell (Solo.placePiece Solo.initState 0 0 4).2.board 0 0 =
      [{ Size := 4, Owner := 1 }] ∧
    (Solo.placePiece Solo.initState 0 0 0).1 = true ∧
    getCell (Solo.placePiece Solo.initState 0 0 0).2.board 0 0 =
      [{ Size := 0, Owner := 1 }] := by
  refine ⟨fun st row col size h => ?_, by decide, by decide, by decide,
    by decide⟩
  simp only [Net.placePiece]
  rw [if_pos h]

/-- C10 witness: size 4 and size 0 are rejected by the networked variant
from its initial state. -/
theorem size_validation_divergence_witness :
    Net.placePiece Net.initState 0 0 4 = (false, Net.initState, []) ∧
    Net.placePiece Net.initState 0 0 0 = (false, Net.initState, []) :=
  ⟨size_validation_divergence.1 Net.initState 0 0 4 (by decide),
    size_validation_divergence.1 Net.initState 0 0 0 (by decide)⟩

/-! ## Wire format (C7)

`saveGameState`/`publishMove` publish `json.Marshal(state)` and
`onMessageReceived`/`loadGameState` apply `json.Unmarshal` into `GameState`.
The payload is modelled as a JSON tree; `encodeGameState` mirrors Marshal's
mapping for `GameState` (field-tagged object, arrays for `[3][3]Stack` and
`[]Gobblet`, integers for the fields), and `decodeGameState` mirrors
Unmarshal's mapping back (field lookup by name, order-independent; `null`
decodes to the empty stack exactly as a marshalled nil slice does). -/

/-- A JSON value as produced by Go's encoding/json for the types at hand. -/
inductive Json where
  | null
  | num (n : Int)
  | arr (elems : List Json)
  | obj (fields : List (String × Json))

/-- Marshal a `Gobblet`: `{"Size": ..., "Owner": ...}`. -/
def encodeGobblet (g : Gobblet) : Json :=
  .obj [("Size", .num g.Size), ("Owner", .num g.Owner)]

/-- Marshal a `Stack` (`[]Gobblet`) as a JSON array. -/
def encodeStack (s : Stack) : Json :=
  .arr (s.map encodeGobblet)

/-- Marshal the `[3][3]Stack` board as a 3x3 nested JSON array. -/
def encodeBoard (b : Board) : Json :=
  .arr [.arr [encodeStack (b 0 0), encodeStack (b 0 1), encodeStack (b 0 2)],
    .arr [encodeStack (b 1 0), encodeStack (b 1 1), encodeStack (b 1 2)],
    .arr [encodeStack (b 2 0), encodeStack (b 2 1), encodeStack (b 2 2)]]

/-- Marshal a snapshot: `{"Board": ..., "PlayerTurn": ..., "Winner": ...}`. -/
def encodeGameState (gs : GameState) : Json :=
  .obj [("Board", encodeBoard gs.board), ("PlayerTurn", .num gs.playerTurn),
    ("Winner", .num gs.winner)]

/-- Unmarshal field lookup by name (first match, order-independent). -/
def lookupField (fs : List (String × Json)) (k : String) : Option Json :=
  (fs.find? (fun p => p.1 == k)).map (fun p => p.2)

/-- Unmarshal an integer. -/
def decodeInt : Json → Option Int
  | .num n => some n
  | _ => none

/-- Unmarshal a `Gobblet` from an object with `Size` and `Owner` fields. -/
def decodeGobblet : Json → Option Gobblet
  | .obj fs => do
      let s ← lookupField fs "Size" >>= decodeInt
      let o ← lookupField fs "Owner" >>= decodeInt
      some { Size := s, Owner := o }
  | _ => none

/-- Unmarshal the elements of a JSON array of gobblets, in order. -/
def decodeGobbletList : List Json → Option (List Gobblet)
  | [] => some []
  | j :: rest => do
      let g ← decodeGobblet j
      let gs ← decodeGobbletList rest
      some (g :: gs)

/-- Unmarshal a `Stack`: `null` is a nil slice (empty stack), an array is
decoded element-wise. -/
def decodeStack : Json → Option Stack
  | .null => some []
  | .arr elems => decodeGobbletList elems
  | _ => none

/-- Unmarshal one `[3]Stack` row. -/
def decodeRow : Json → Option (Fin 3 → Stack)
  | .arr [a, b, c] => do
      let sa ← decodeStack a
      let sb ← decodeStack b
      let sc ← decodeStack c
      some ![sa, sb, sc]
  | _ => none

/-- Unmarshal the `[3][3]Stack` board. -/
def decodeBoard : Json → Option Board
  | .arr [r0, r1, r2] => do
      let a ← decodeRow r0
      let b ← decodeRow r1
      let c ← decodeRow r2
      some ![a, b, c]
  | _ => none

/-- Unmarshal a snapshot from its three named fields. -/
def decodeGameState : Json → Option GameState
  | .obj fs => do
      let b ← lookupField fs "Board" >>= decodeBoard
      let t ← lookupField fs "PlayerTurn" >>= decodeInt
      let w ← lookupField fs "Winner" >>= decodeInt
      some { board := b, playerTurn := t, winner := w }
  | _ => none

lemma decodeGobblet_encode (g : Gobblet) :
    decodeGobblet (encodeGobblet g) = some g := by
  simp [decodeGobblet, encodeGobblet, lookupField, decodeInt]

lemma decodeGobbletList_encode (l : List Gobblet) :
    decodeGobbletList (l.map encodeGobblet) = some l := by
  induction l with
  | nil => rfl
  | cons g rest ih => simp [decodeGobbletList, decodeGobblet_encode, ih]

lemma decodeStack_encode (s : Stack) :
    decodeStack (encodeStack s) = some s := by
  simp [decodeStack, encodeStack, decodeGobbletList_encode]

lemma decodeRow_encode (a b c : Stack) :
    decodeRow (.arr [encodeStack a, encodeStack b, encodeStack c]) =
      some ![a, b, c] := by
  simp [decodeRow, decodeStack_encode]

lemma decodeBoard_encode (b : Board) :
    decodeBoard (encodeBoard b) = some b := by
  have hb : ![![b 0 0, b 0 1, b 0 2], ![b 1 0, b 1 1, b 1 2],
      ![b 2 0, b 2 1, b 2 2]] = b := by
    funext i j
    fin_cases i <;> fin_cases j <;> simp
  simp [decodeBoard, encodeBoard, decodeRow_encode, hb]

/-- C7: decoding the wire encoding of a snapshot yields the original
snapshot — `decode(encode(snapshot)) = snapshot` for every snapshot (board
plus playerTurn plus winner), in particular for the all-empty and for full
boards. -/
theorem snapshot_roundtrip (gs : GameState) :
    decodeGameState (encodeGameState gs) = some gs := by
  simp [decodeGameState, encodeGameState, lookupField, decodeInt,
    decodeBoard_encode]
